import Mathlib

/-!
Formal model of the VN100 HSI calibration tool (VN100_HSIEstimator.py).

Python strings are modelled as lists of characters, Python lists as Lean
lists, and the mutable estimator state (the hsi_before and hsi_after slots)
as an explicit record threaded through each reader iteration.  All
definitions are executable, so concrete runs of the model can be checked by
evaluation.
-/

/-- Python strings are modelled as lists of characters. -/
abbrev Str := List Char

/-- Python whitespace characters, as recognised by the argumentless strip method. -/
def pyIsSpace (c : Char) : Bool :=
  c = ' ' || c = '\t' || c = '\n' || c = '\r' || c = '\x0b' || c = '\x0c'

/-- Model of the Python strip method with no argument: removes leading and
trailing whitespace characters. -/
def pyStrip (l : Str) : Str :=
  (l.dropWhile pyIsSpace).rdropWhile pyIsSpace

/-- Model of the Python strip method with a one character argument: removes
every copy of that character from both ends. -/
def pyStripChar (c : Char) (l : Str) : Str :=
  (l.dropWhile (fun x => x = c)).rdropWhile (fun x => x = c)

/-- Model of the Python split method on a one character separator.  On the
empty string it returns one empty field, matching Python. -/
def splitOnChar (c : Char) : Str → List Str
  | [] => [[]]
  | x :: xs =>
      if x = c then [] :: splitOnChar c xs
      else (x :: (splitOnChar c xs).headI) :: (splitOnChar c xs).tail

/-- True when the character lies in the ASCII range, the domain of the
Python ascii codec used by vn_checksum and write_full_vn_message. -/
def isAsciiCh (c : Char) : Bool := c.toNat < 128

/-- The XOR fold over the character codes of the payload, the accumulator
computed inside vn_checksum. -/
def xorFold (payload : Str) : Nat :=
  payload.foldl (fun a ch => a ^^^ ch.toNat) 0

/-- One uppercase hexadecimal digit, as produced for each nibble by the
Python format specifier 02X. -/
def hexChar (n : Nat) : Char :=
  if n < 10 then Char.ofNat (48 + n) else Char.ofNat (55 + n)

/-- Model of HSIEstimator.vn_checksum: the XOR of the ascii encoded payload
bytes, rendered as two uppercase hexadecimal digits.  The ascii encoding
step raises UnicodeEncodeError on any character outside the ASCII range,
hence the Option result; under the ASCII guard the fold stays below 256, so
the 02X rendering is exactly two digits. -/
def vn_checksum (payload : Str) : Option Str :=
  if payload.all isAsciiCh then
    some [hexChar (xorFold payload / 16), hexChar (xorFold payload % 16)]
  else none

/-- Model of HSIEstimator.write_full_vn_message: frames the payload between
a leading dollar, the asterisk separated checksum and a CRLF terminator. -/
def write_full_vn_message (payload : Str) : Option Str :=
  (vn_checksum payload).map fun cks => '$' :: payload ++ '*' :: cks ++ ['\r', '\n']

/-- The parsed field list of one incoming line, as computed in
HSIEstimator.reader: strip the line, drop everything from the first
asterisk on, and split the rest on commas. -/
def parsedOf (line : Str) : List Str :=
  splitOnChar ',' ((splitOnChar '*' (pyStrip line)).headI)

/-- The message type tag of a line: the first parsed field with every
leading and trailing dollar character removed, as the reader computes it. -/
def msgTypeOf (line : Str) : Str :=
  pyStripChar '$' (parsedOf line).headI

/-- The full decoded field sequence of a line: the type tag followed by the
remaining data fields. -/
def decodeFields (line : Str) : List Str :=
  msgTypeOf line :: (parsedOf line).tail

/-- Numeric value of one decimal digit character. -/
def digitVal (c : Char) : Nat := c.toNat - 48

/-- Value of a string of decimal digits. -/
def digitsToNat (l : Str) : Nat :=
  l.foldl (fun a c => 10 * a + digitVal c) 0

/-- Model of the Python built in int applied to a string: surrounding
whitespace is stripped, then an optional sign is followed by at least one
decimal digit.  Digit group underscores and non decimal bases are not
modelled, as no message in this program uses them. -/
def pyInt (s : Str) : Option Int :=
  let t := pyStrip s
  let sign : Int := if t.head? = some '-' then -1 else 1
  let u := if t.head? = some '-' ∨ t.head? = some '+' then t.tail else t
  if u ≠ [] ∧ u.all Char.isDigit then some (sign * (digitsToNat u : Int)) else none

/-- Digit level model of the Python built in float applied to a string:
surrounding whitespace is stripped, then an optional sign is followed by an
integer part and an optional fractional part, at least one digit in total.
The result is the signed digit value together with the number of fraction
digits.  Exponents, infinities, nan and digit group underscores are not
modelled, as no input relevant to this program uses them. -/
def pyFloatRaw (s : Str) : Option (Int × Nat) :=
  let t := pyStrip s
  let sign : Int := if t.head? = some '-' then -1 else 1
  let u := if t.head? = some '-' ∨ t.head? = some '+' then t.tail else t
  let ip := u.takeWhile Char.isDigit
  let rest := u.dropWhile Char.isDigit
  match rest with
  | [] => if ip = [] then none else some (sign * (digitsToNat ip : Int), 0)
  | '.' :: fr =>
      if fr.all Char.isDigit ∧ (ip ≠ [] ∨ fr ≠ []) then
        some (sign * ((digitsToNat ip * 10 ^ fr.length + digitsToNat fr : Nat) : Int),
          fr.length)
      else none
  | _ => none

/-- The exact rational value of a parsed float.  Every comparison the
program performs on the inputs it documents falls on the same side for the
exact rational value and for the IEEE double Python computes. -/
def pyFloat (s : Str) : Option ℚ :=
  (pyFloatRaw s).map fun p => (p.1 : ℚ) / (10 : ℚ) ^ p.2

/-- One register snapshot slot: the C matrix in row major order and the B
vector, both as string encoded numbers, exactly as stored in hsi_before and
hsi_after. -/
structure Snapshot where
  C : List Str
  B : List Str
deriving DecidableEq

/-- The mutable snapshot state of an HSIEstimator instance. -/
structure HSIState where
  hsi_before : Snapshot
  hsi_after : Snapshot
deriving DecidableEq

/-- The snapshot state created by the HSIEstimator constructor: both slots
hold empty sequences. -/
def initState : HSIState := ⟨⟨[], []⟩, ⟨[], []⟩⟩

/-- Python exceptions that the body of the reader loop can raise. -/
inductive PyExc where
  | indexError
  | valueError
deriving DecidableEq

/-- Observable outcome of one reader iteration, matching the print and warn
calls of the source. -/
inductive ReaderEvent where
  | skippedEmpty
  | capturedBefore
  | capturedAfter
  | overflowWarn
  | deviceErrorWarn (code : Str)
  | unhandled
  | fault
deriving DecidableEq

/-- The matrix slice stored by a register 47 capture: fields 2 to 10 of the
parsed message, written parsed_msg[2:11] in the source. -/
def ackC (line : Str) : List Str :=
  ((parsedOf line).drop 2).take 9

/-- The bias slice stored by a register 47 capture: fields 11 to 13 of the
parsed message, written parsed_msg[11:14] in the source. -/
def ackB (line : Str) : List Str :=
  ((parsedOf line).drop 11).take 3

/-- The try block of one iteration of HSIEstimator.reader, for one already
decoded line.  Fallible Python operations are explicit: reading field 1 of
the parsed message raises IndexError when absent, and int raises ValueError
on a non numeric field.  Empty lines are skipped before parsing.  The and
operator of the register test short circuits, so int is only evaluated when
the type tag equals VNRRG. -/
def readerTry (st : HSIState) (line : Str) : Except PyExc (HSIState × ReaderEvent) :=
  if pyStrip line = [] then Except.ok (st, ReaderEvent.skippedEmpty)
  else if msgTypeOf line = "VNRRG".toList then
    match (parsedOf line).get? 1 with
    | none => Except.error PyExc.indexError
    | some rf =>
      match pyInt rf with
      | none => Except.error PyExc.valueError
      | some n =>
        if n = 47 then
          if st.hsi_before.C = [] then
            Except.ok ({ st with hsi_before := ⟨ackC line, ackB line⟩ },
              ReaderEvent.capturedBefore)
          else if st.hsi_after.C = [] then
            Except.ok ({ st with hsi_after := ⟨ackC line, ackB line⟩ },
              ReaderEvent.capturedAfter)
          else Except.ok (st, ReaderEvent.overflowWarn)
        else Except.ok (st, ReaderEvent.unhandled)
  else if msgTypeOf line = "VNERR".toList then
    match (parsedOf line).get? 1 with
    | none => Except.error PyExc.indexError
    | some code => Except.ok (st, ReaderEvent.deviceErrorWarn code)
  else Except.ok (st, ReaderEvent.unhandled)

/-- One full iteration of the reader loop: the except clause catches every
exception of the body, prints it and leaves the state unchanged, so the
loop always continues. -/
def readerStep (st : HSIState) (line : Str) : HSIState × ReaderEvent :=
  match readerTry st line with
  | Except.ok r => r
  | Except.error _ => (st, ReaderEvent.fault)

/-- The reader loop run over a finite sequence of incoming lines, returning
the final state and the event of each iteration. -/
def runReader (st : HSIState) : List Str → HSIState × List ReaderEvent
  | [] => (st, [])
  | l :: rest =>
      let s1 := readerStep st l
      let s2 := runReader s1.1 rest
      (s2.1, s1.2 :: s2.2)

/-- A line the reader treats as a register 47 acknowledgment: nonempty
after stripping, type tag VNRRG, and field 1 parsing to the integer 47. -/
def isValidReg47Ack (line : Str) : Bool :=
  decide (pyStrip line ≠ [] ∧ msgTypeOf line = "VNRRG".toList ∧
    ((parsedOf line).get? 1).bind pyInt = some 47)

/-- A register 47 acknowledgment that carries at least one data field after
the register number, so that a capture actually populates a slot. -/
def isReg47AckWithData (line : Str) : Bool :=
  isValidReg47Ack line && decide (3 ≤ (parsedOf line).length)

/-- One interaction at an input prompt: either the operator types a line or
the prompt is interrupted (KeyboardInterrupt). -/
inductive PromptInput where
  | line (s : Str)
  | interrupt
deriving DecidableEq

/-- Result of the convergence rate input loop of run_hsi_calibration. -/
inductive ConvOutcome where
  /-- A rate was accepted; the loop ends and the start command carries the
  raw string the operator typed. -/
  | accepted (rate : Str)
  /-- ValueError from float escaped the loop: the try clause catches only
  KeyboardInterrupt, so a non numeric input aborts the whole run. -/
  | crashed
  /-- The supplied inputs ran out with the loop still asking. -/
  | exhausted
deriving DecidableEq

/-- The convergence rate input loop of run_hsi_calibration, driven by a
finite list of operator inputs.  A KeyboardInterrupt is caught and the loop
keeps asking; float is applied to the typed line, and the test accepts the
value when it is at most 5 and at least 1, in source order. -/
def convRateLoop : List PromptInput → ConvOutcome
  | [] => ConvOutcome.exhausted
  | PromptInput.interrupt :: rest => convRateLoop rest
  | PromptInput.line s :: rest =>
      match pyFloat s with
      | none => ConvOutcome.crashed
      | some q => if q ≤ 5 ∧ 1 ≤ q then ConvOutcome.accepted s else convRateLoop rest

/-- Model of HSIEstimator.check_to_continue, driven by a finite list of
operator inputs: the letter y answers true, the letter n answers false, any
other line repeats the prompt, and a KeyboardInterrupt answers false.  The
result is none when the inputs run out with the prompt still open. -/
def check_to_continue : List PromptInput → Option Bool
  | [] => none
  | PromptInput.interrupt :: _ => some false
  | PromptInput.line s :: rest =>
      if s = "y".toList then some true
      else if s = "n".toList then some false
      else check_to_continue rest

/-- Operator inputs consumed by one calibration run: the continue gate
after the before snapshot display, the convergence rate prompt, and the
save gate. -/
structure RunEnv where
  gate1 : List PromptInput
  convInputs : List PromptInput
  gateSave : List PromptInput

/-- How a calibration run ends. -/
inductive RunOutcome where
  /-- Some prompt never received a deciding input. -/
  | waitingForInput
  /-- The operator declined or cancelled at the first continue gate; the
  function returns normally. -/
  | earlyStopBeforeEstimation
  /-- An uncaught ValueError escaped the convergence rate prompt. -/
  | crashedDuringPrompt
  /-- The operator declined at the save gate; the function returns
  normally. -/
  | earlyStopBeforeSave
  /-- The full sequence ran to the final save command. -/
  | completed
deriving DecidableEq

/-- Payload of the disable periodic output command of step 0. -/
def cmdFreqOff : Str := "VNWRG,07,0,1".toList

/-- Payload of the read register 47 command. -/
def cmdReadHSI : Str := "VNRRG,47".toList

/-- Payload of the start estimation command, carrying the accepted rate. -/
def cmdStartEstimation (rate : Str) : Str := "VNWRG,44,1,1,".toList ++ rate

/-- Payload of the stop estimation command of step 5. -/
def cmdStopEstimation : Str := "VNWRG,44,0,3,1".toList

/-- Payload of the restore periodic output command of step 6. -/
def cmdResetAsync : Str := "VNWRG,7,40,1".toList

/-- Payload of the save to non volatile storage command. -/
def cmdSave : Str := "VNWNV".toList

/-- Model of HSIEstimator.run_hsi_calibration as a function from the
operator inputs to the ordered list of command payloads written to the
serial port and the outcome of the run.  Each listed payload is sent on the
wire as write_full_vn_message applied to it.  The snapshot poll loops, the
display steps and the sleeps perform no writes and no state changes visible
here, so they contribute nothing to the trace. -/
def run_hsi_calibration (env : RunEnv) : List Str × RunOutcome :=
  let writes0 := [cmdFreqOff, cmdReadHSI]
  match check_to_continue env.gate1 with
  | none => (writes0, RunOutcome.waitingForInput)
  | some false => (writes0, RunOutcome.earlyStopBeforeEstimation)
  | some true =>
      match convRateLoop env.convInputs with
      | ConvOutcome.exhausted => (writes0, RunOutcome.waitingForInput)
      | ConvOutcome.crashed => (writes0, RunOutcome.crashedDuringPrompt)
      | ConvOutcome.accepted rate =>
          let writes1 := writes0 ++ [cmdStartEstimation rate, cmdReadHSI, cmdStopEstimation]
          match check_to_continue env.gateSave with
          | none => (writes1, RunOutcome.waitingForInput)
          | some false => (writes1, RunOutcome.earlyStopBeforeSave)
          | some true => (writes1 ++ [cmdResetAsync, cmdSave], RunOutcome.completed)

/-- The reader leaves the state untouched on every line that is not a
register 47 acknowledgment: empty lines, unhandled types, device errors and
lines whose decoding raises an exception. -/
theorem readerStep_noop (st : HSIState) (line : Str)
    (hv : isValidReg47Ack line = false) : (readerStep st line).1 = st := by
  have hnv := of_decide_eq_false hv
  unfold readerStep readerTry
  by_cases h0 : pyStrip line = []
  · rw [if_pos h0]
  · rw [if_neg h0]
    by_cases h1 : msgTypeOf line = "VNRRG".toList
    · rw [if_pos h1]
      have h2 : ((parsedOf line).get? 1).bind pyInt ≠ some 47 := by
        intro hc
        exact hnv ⟨h0, h1, hc⟩
      cases hg : (parsedOf line).get? 1 with
      | none => rfl
      | some rf =>
        dsimp only
        cases hi : pyInt rf with
        | none => rfl
        | some n =>
          dsimp only
          have hn : n ≠ 47 := by
            rw [hg] at h2
            simp only [Option.some_bind, hi] at h2
            intro he
            exact h2 (by rw [he])
          rw [if_neg hn]
    · rw [if_neg h1]
      by_cases h3 : msgTypeOf line = "VNERR".toList
      · rw [if_pos h3]
        cases hg : (parsedOf line).get? 1 with
        | none => rfl
        | some code => rfl
      · rw [if_neg h3]

/-- When the before slot is empty, a valid register 47 acknowledgment is
stored there. -/
theorem readerStep_capture_before (st : HSIState) (line : Str)
    (hv : isValidReg47Ack line = true) (hb : st.hsi_before.C = []) :
    readerStep st line =
      ({ st with hsi_before := ⟨ackC line, ackB line⟩ }, ReaderEvent.capturedBefore) := by
  obtain ⟨h0, h1, h2⟩ := of_decide_eq_true hv
  obtain ⟨rf, hg, hi⟩ := Option.bind_eq_some.mp h2
  unfold readerStep readerTry
  rw [if_neg h0, if_pos h1, hg]
  dsimp only
  rw [hi]
  simp [hb]

/-- When the before slot is full and the after slot is empty, a valid
register 47 acknowledgment is stored in the after slot. -/
theorem readerStep_capture_after (st : HSIState) (line : Str)
    (hv : isValidReg47Ack line = true) (hb : st.hsi_before.C ≠ [])
    (ha : st.hsi_after.C = []) :
    readerStep st line =
      ({ st with hsi_after := ⟨ackC line, ackB line⟩ }, ReaderEvent.capturedAfter) := by
  obtain ⟨h0, h1, h2⟩ := of_decide_eq_true hv
  obtain ⟨rf, hg, hi⟩ := Option.bind_eq_some.mp h2
  unfold readerStep readerTry
  rw [if_neg h0, if_pos h1, hg]
  dsimp only
  rw [hi]
  simp [hb, ha]

/-- When both slots are full, a valid register 47 acknowledgment only emits
the overflow warning. -/
theorem readerStep_overflow (st : HSIState) (line : Str)
    (hv : isValidReg47Ack line = true) (hb : st.hsi_before.C ≠ [])
    (ha : st.hsi_after.C ≠ []) :
    readerStep st line = (st, ReaderEvent.overflowWarn) := by
  obtain ⟨h0, h1, h2⟩ := of_decide_eq_true hv
  obtain ⟨rf, hg, hi⟩ := Option.bind_eq_some.mp h2
  unfold readerStep readerTry
  rw [if_neg h0, if_pos h1, hg]
  dsimp only
  rw [hi]
  simp [hb, ha]

/-- Unfolding one iteration of the reader run. -/
theorem runReader_cons (st : HSIState) (l : Str) (ls : List Str) :
    (runReader st (l :: ls)).1 = (runReader (readerStep st l).1 ls).1 := rfl

/-- The reader run splits over list append. -/
theorem runReader_append (st : HSIState) (xs ys : List Str) :
    (runReader st (xs ++ ys)).1 = (runReader (runReader st xs).1 ys).1 := by
  induction xs generalizing st with
  | nil => rfl
  | cons l ls ih => rw [List.cons_append, runReader_cons, ih, runReader_cons]

/-- A run over lines that are not register 47 acknowledgments leaves the
state unchanged. -/
theorem runReader_noop_list (st : HSIState) (lines : List Str)
    (h : ∀ l ∈ lines, isValidReg47Ack l = false) : (runReader st lines).1 = st := by
  induction lines generalizing st with
  | nil => rfl
  | cons l ls ih =>
      rw [runReader_cons, readerStep_noop st l (h l (List.mem_cons_self _ _))]
      exact ih st fun x hx => h x (List.mem_cons_of_mem _ hx)

/-- A data carrying acknowledgment is in particular a valid one. -/
theorem withData_valid (l : Str) (h : isReg47AckWithData l = true) :
    isValidReg47Ack l = true :=
  ((Bool.and_eq_true _ _).mp h).1

/-- A data carrying acknowledgment stores a nonempty matrix slice. -/
theorem ackC_ne_nil (l : Str) (h : isReg47AckWithData l = true) : ackC l ≠ [] := by
  have h3 : 3 ≤ (parsedOf l).length :=
    of_decide_eq_true ((Bool.and_eq_true _ _).mp h).2
  unfold ackC
  intro hnil
  rcases List.take_eq_nil_iff.mp hnil with h9 | hdrop
  · omega
  · have := List.drop_eq_nil_iff.mp hdrop
    omega

/-- Once the before slot is populated, one reader step never changes it. -/
theorem readerStep_before_mono (st : HSIState) (l : Str)
    (hb : st.hsi_before.C ≠ []) : (readerStep st l).1.hsi_before = st.hsi_before := by
  cases hv : isValidReg47Ack l with
  | false => rw [readerStep_noop st l hv]
  | true =>
      by_cases ha : st.hsi_after.C = []
      · rw [readerStep_capture_after st l hv hb ha]
      · rw [readerStep_overflow st l hv hb ha]

/-- Once the after slot is populated, one reader step never changes it. -/
theorem readerStep_after_mono (st : HSIState) (l : Str)
    (ha : st.hsi_after.C ≠ []) : (readerStep st l).1.hsi_after = st.hsi_after := by
  cases hv : isValidReg47Ack l with
  | false => rw [readerStep_noop st l hv]
  | true =>
      by_cases hb : st.hsi_before.C = []
      · rw [readerStep_capture_before st l hv hb]
      · rw [readerStep_overflow st l hv hb ha]

/-- Once the before slot is populated, no later line of the run changes it. -/
theorem runReader_before_mono (st : HSIState) (lines : List Str)
    (hb : st.hsi_before.C ≠ []) :
    (runReader st lines).1.hsi_before = st.hsi_before := by
  induction lines generalizing st with
  | nil => rfl
  | cons l ls ih =>
      rw [runReader_cons]
      have h1 := readerStep_before_mono st l hb
      rw [ih _ (by rw [h1]; exact hb), h1]

/-- Once the after slot is populated, no later line of the run changes it. -/
theorem runReader_after_mono (st : HSIState) (lines : List Str)
    (ha : st.hsi_after.C ≠ []) :
    (runReader st lines).1.hsi_after = st.hsi_after := by
  induction lines generalizing st with
  | nil => rfl
  | cons l ls ih =>
      rw [runReader_cons]
      have h1 := readerStep_after_mono st l ha
      rw [ih _ (by rw [h1]; exact ha), h1]

/-- With both slots populated, a run over valid acknowledgments is inert. -/
theorem runReader_stable (st : HSIState) (lines : List Str)
    (hb : st.hsi_before.C ≠ []) (ha : st.hsi_after.C ≠ [])
    (hl : ∀ l ∈ lines, isValidReg47Ack l = true) : (runReader st lines).1 = st := by
  induction lines generalizing st with
  | nil => rfl
  | cons l ls ih =>
      rw [runReader_cons, readerStep_overflow st l (hl l (List.mem_cons_self _ _)) hb ha]
      exact ih st hb ha fun x hx => hl x (List.mem_cons_of_mem _ hx)

/-- Two data carrying acknowledgments populate both slots, from any state. -/
theorem runReader_two_pop (st : HSIState) (l1 l2 : Str)
    (h1 : isReg47AckWithData l1 = true) (h2 : isReg47AckWithData l2 = true) :
    (runReader st [l1, l2]).1.hsi_before.C ≠ [] ∧
    (runReader st [l1, l2]).1.hsi_after.C ≠ [] := by
  have hv1 := withData_valid l1 h1
  have hv2 := withData_valid l2 h2
  have key : (runReader st [l1, l2]).1 = (readerStep (readerStep st l1).1 l2).1 := rfl
  rw [key]
  by_cases hb : st.hsi_before.C = []
  · have e1 : (readerStep st l1).1 = { st with hsi_before := ⟨ackC l1, ackB l1⟩ } := by
      rw [readerStep_capture_before st l1 hv1 hb]
    rw [e1]
    by_cases ha1 : ({ st with hsi_before := ⟨ackC l1, ackB l1⟩ } : HSIState).hsi_after.C = []
    · rw [readerStep_capture_after _ l2 hv2 (by simpa using ackC_ne_nil l1 h1) ha1]
      exact ⟨by simpa using ackC_ne_nil l1 h1, by simpa using ackC_ne_nil l2 h2⟩
    · rw [readerStep_overflow _ l2 hv2 (by simpa using ackC_ne_nil l1 h1) ha1]
      exact ⟨by simpa using ackC_ne_nil l1 h1, ha1⟩
  · by_cases ha : st.hsi_after.C = []
    · have e1 : (readerStep st l1).1 = { st with hsi_after := ⟨ackC l1, ackB l1⟩ } := by
        rw [readerStep_capture_after st l1 hv1 hb ha]
      rw [e1]
      rw [readerStep_overflow _ l2 hv2 (by simpa using hb) (by simpa using ackC_ne_nil l1 h1)]
      exact ⟨by simpa using hb, by simpa using ackC_ne_nil l1 h1⟩
    · have e1 : (readerStep st l1).1 = st := by
        rw [readerStep_overflow st l1 hv1 hb ha]
      rw [e1, readerStep_overflow st l2 hv2 hb ha]
      exact ⟨hb, ha⟩

/-- In a run consisting only of data carrying acknowledgments, lines after
the second have no effect on the final state. -/
theorem runReader_take_two (lines : List Str) (st0 : HSIState)
    (hl : ∀ l ∈ lines, isReg47AckWithData l = true) :
    (runReader st0 lines).1 = (runReader st0 (lines.take 2)).1 := by
  rcases lines with _ | ⟨l1, _ | ⟨l2, rest⟩⟩
  · rfl
  · rfl
  · have hpop := runReader_two_pop st0 l1 l2 (hl l1 (List.mem_cons_self _ _))
      (hl l2 (List.mem_cons_of_mem _ (List.mem_cons_self _ _)))
    have hdec : (runReader st0 (l1 :: l2 :: rest)).1
        = (runReader (runReader st0 [l1, l2]).1 rest).1 := by
      rw [← runReader_append]
      rfl
    rw [hdec, runReader_stable _ rest hpop.1 hpop.2 (fun x hx =>
      withData_valid x (hl x (List.mem_cons_of_mem _ (List.mem_cons_of_mem _ hx))))]
    rfl

/-- C3: once both snapshot slots are populated, any further valid register
47 acknowledgment only emits the overflow warning and leaves the state
exactly unchanged; consequently, in a run consisting of data carrying
register 47 acknowledgments, only the first two captures affect the final
state, from any starting state. -/
theorem overflow_noop_after_two (st : HSIState) (line : Str) (lines : List Str)
    (hb : st.hsi_before.C ≠ []) (ha : st.hsi_after.C ≠ [])
    (hv : isValidReg47Ack line = true)
    (hl : ∀ l ∈ lines, isReg47AckWithData l = true) :
    readerStep st line = (st, ReaderEvent.overflowWarn) ∧
    ∀ st0 : HSIState, (runReader st0 lines).1 = (runReader st0 (lines.take 2)).1 :=
  ⟨readerStep_overflow st line hv hb ha, fun st0 => runReader_take_two lines st0 hl⟩

theorem overflow_noop_after_two_witness :
    readerStep ⟨⟨[['1']], [['2']]⟩, ⟨[['3']], [['4']]⟩⟩ ("$VNRRG,47,5".toList) =
      (⟨⟨[['1']], [['2']]⟩, ⟨[['3']], [['4']]⟩⟩, ReaderEvent.overflowWarn) ∧
    (runReader initState
        ["$VNRRG,47,1,2,3".toList, "$VNRRG,47,4,5,6".toList, "$VNRRG,47,7,8,9".toList]).1 =
      (runReader initState
        (["$VNRRG,47,1,2,3".toList, "$VNRRG,47,4,5,6".toList,
          "$VNRRG,47,7,8,9".toList].take 2)).1 := by
  have h := overflow_noop_after_two ⟨⟨[['1']], [['2']]⟩, ⟨[['3']], [['4']]⟩⟩
      ("$VNRRG,47,5".toList)
      ["$VNRRG,47,1,2,3".toList, "$VNRRG,47,4,5,6".toList, "$VNRRG,47,7,8,9".toList]
      (by decide) (by decide) (by decide) (by decide)
  exact ⟨h.1, h.2 initState⟩

/-- C4: starting from the freshly constructed state, two data carrying
register 47 acknowledgments populate the before slot with the fields of the
first one and the after slot with the fields of the second one, in that
order, regardless of which non capturing lines (unhandled messages, error
notifications, blank lines, malformed lines) are interleaved around them. -/
theorem two_acks_fill_before_then_after (xs0 xs1 xs2 : List Str) (a1 a2 : Str)
    (h1 : isReg47AckWithData a1 = true) (h2 : isReg47AckWithData a2 = true)
    (hx : ∀ l ∈ xs0 ++ xs1 ++ xs2, isValidReg47Ack l = false) :
    (runReader initState (xs0 ++ a1 :: (xs1 ++ a2 :: xs2))).1.hsi_before =
      ⟨ackC a1, ackB a1⟩ ∧
    (runReader initState (xs0 ++ a1 :: (xs1 ++ a2 :: xs2))).1.hsi_after =
      ⟨ackC a2, ackB a2⟩ := by
  have hx0 : ∀ l ∈ xs0, isValidReg47Ack l = false := fun l hl => hx l (by simp [hl])
  have hx1 : ∀ l ∈ xs1, isValidReg47Ack l = false := fun l hl => hx l (by simp [hl])
  have hx2 : ∀ l ∈ xs2, isValidReg47Ack l = false := fun l hl => hx l (by simp [hl])
  have e0 : (runReader initState (xs0 ++ a1 :: (xs1 ++ a2 :: xs2))).1
      = (runReader (readerStep initState a1).1 (xs1 ++ a2 :: xs2)).1 := by
    rw [runReader_append, runReader_noop_list initState xs0 hx0, runReader_cons]
  have e1 : (readerStep initState a1).1 = (⟨⟨ackC a1, ackB a1⟩, ⟨[], []⟩⟩ : HSIState) := by
    rw [readerStep_capture_before initState a1 (withData_valid a1 h1) rfl]
    rfl
  have e2 : (runReader (⟨⟨ackC a1, ackB a1⟩, ⟨[], []⟩⟩ : HSIState) (xs1 ++ a2 :: xs2)).1
      = (⟨⟨ackC a1, ackB a1⟩, ⟨ackC a2, ackB a2⟩⟩ : HSIState) := by
    rw [runReader_append, runReader_noop_list _ xs1 hx1, runReader_cons,
      readerStep_capture_after _ a2 (withData_valid a2 h2) (ackC_ne_nil a1 h1) rfl]
    exact runReader_noop_list _ xs2 hx2
  rw [e0, e1, e2]
  exact ⟨rfl, rfl⟩

theorem two_acks_fill_before_then_after_witness :
    (runReader initState (["$FOO,1".toList] ++
        "$VNRRG,47,1,2,3,4,5,6,7,8,9,0.1,0.2,0.3".toList ::
        (["$VNERR,03".toList] ++
          "$VNRRG,47,11,12,13,14,15,16,17,18,19,1,2,3".toList ::
          ["  ".toList]))).1.hsi_before =
      ⟨ackC ("$VNRRG,47,1,2,3,4,5,6,7,8,9,0.1,0.2,0.3".toList),
        ackB ("$VNRRG,47,1,2,3,4,5,6,7,8,9,0.1,0.2,0.3".toList)⟩ ∧
    (runReader initState (["$FOO,1".toList] ++
        "$VNRRG,47,1,2,3,4,5,6,7,8,9,0.1,0.2,0.3".toList ::
        (["$VNERR,03".toList] ++
          "$VNRRG,47,11,12,13,14,15,16,17,18,19,1,2,3".toList ::
          ["  ".toList]))).1.hsi_after =
      ⟨ackC ("$VNRRG,47,11,12,13,14,15,16,17,18,19,1,2,3".toList),
        ackB ("$VNRRG,47,11,12,13,14,15,16,17,18,19,1,2,3".toList)⟩ :=
  two_acks_fill_before_then_after ["$FOO,1".toList] ["$VNERR,03".toList] ["  ".toList]
    ("$VNRRG,47,1,2,3,4,5,6,7,8,9,0.1,0.2,0.3".toList)
    ("$VNRRG,47,11,12,13,14,15,16,17,18,19,1,2,3".toList)
    (by decide) (by decide) (by decide)

/-- C5: snapshot population is monotonic: for each slot, as soon as its
matrix sequence is nonempty, no later processed line of the run changes the
slot in any way; a slot counts as populated exactly when its matrix
sequence is nonempty. -/
theorem snapshot_population_monotonic (st : HSIState) (lines : List Str) :
    (st.hsi_before.C ≠ [] → (runReader st lines).1.hsi_before = st.hsi_before) ∧
    (st.hsi_after.C ≠ [] → (runReader st lines).1.hsi_after = st.hsi_after) :=
  ⟨fun hb => runReader_before_mono st lines hb,
   fun ha => runReader_after_mono st lines ha⟩

theorem snapshot_population_monotonic_witness :
    (runReader ⟨⟨[['1']], []⟩, ⟨[['2']], []⟩⟩
        ["$VNRRG,47,7,8,9".toList, "$VNERR,03".toList]).1.hsi_before =
      (⟨⟨[['1']], []⟩, ⟨[['2']], []⟩⟩ : HSIState).hsi_before ∧
    (runReader ⟨⟨[['1']], []⟩, ⟨[['2']], []⟩⟩
        ["$VNRRG,47,7,8,9".toList, "$VNERR,03".toList]).1.hsi_after =
      (⟨⟨[['1']], []⟩, ⟨[['2']], []⟩⟩ : HSIState).hsi_after :=
  ⟨(snapshot_population_monotonic ⟨⟨[['1']], []⟩, ⟨[['2']], []⟩⟩
      ["$VNRRG,47,7,8,9".toList, "$VNERR,03".toList]).1 (by decide),
   (snapshot_population_monotonic ⟨⟨[['1']], []⟩, ⟨[['2']], []⟩⟩
      ["$VNRRG,47,7,8,9".toList, "$VNERR,03".toList]).2 (by decide)⟩

/-- C6: when the body of a reader iteration raises an exception (for
field), the iteration reports a fault, leaves the state unchanged, and the
loop continues with the remaining lines; no line makes an exception escape
the task. -/
theorem reader_fault_nonfatal (st : HSIState) (line : Str) (rest : List Str)
    (e : PyExc) (h : readerTry st line = Except.error e) :
    readerStep st line = (st, ReaderEvent.fault) ∧
    runReader st (line :: rest) =
      ((runReader st rest).1, ReaderEvent.fault :: (runReader st rest).2) := by
  have h1 : readerStep st line = (st, ReaderEvent.fault) := by
    unfold readerStep
    rw [h]
  exact ⟨h1, by simp [runReader, h1]⟩

theorem reader_fault_nonfatal_witness :
    (readerStep initState ("$VNRRG".toList) = (initState, ReaderEvent.fault) ∧
      runReader initState ["$VNRRG".toList, "$VNRRG,47,1,2,3".toList] =
        ((runReader initState ["$VNRRG,47,1,2,3".toList]).1,
          ReaderEvent.fault :: (runReader initState ["$VNRRG,47,1,2,3".toList]).2)) ∧
    readerStep initState ("$VNRRG,xx,1".toList) = (initState, ReaderEvent.fault) := by
  have ha := reader_fault_nonfatal initState ("$VNRRG".toList)
      ["$VNRRG,47,1,2,3".toList] PyExc.indexError rfl
  have hb := reader_fault_nonfatal initState ("$VNRRG,xx,1".toList) []
      PyExc.valueError rfl
  exact ⟨ha, hb.1⟩

/-- C8: an empty or whitespace only line is skipped: the state is
unchanged, the event is the silent skip, and in particular no fault, no
warning and no capture happens. -/
theorem blank_line_skipped (st : HSIState) (line : Str)
    (h : ∀ c ∈ line, pyIsSpace c = true) :
    readerStep st line = (st, ReaderEvent.skippedEmpty) := by
  have h0 : pyStrip line = [] := by
    unfold pyStrip
    rw [List.dropWhile_eq_nil_iff.mpr h, List.rdropWhile_nil]
  unfold readerStep readerTry
  rw [if_pos h0]

theorem blank_line_skipped_witness :
    readerStep ⟨⟨[['1']], []⟩, ⟨[], []⟩⟩ (" \t ".toList) =
      (⟨⟨[['1']], []⟩, ⟨[], []⟩⟩, ReaderEvent.skippedEmpty) :=
  blank_line_skipped ⟨⟨[['1']], []⟩, ⟨[], []⟩⟩ (" \t ".toList) (by decide)

/-- C10: a register 47 acknowledgment with no data fields after the
register number stores an empty matrix and bias, so with the before slot
empty the target slot stays unpopulated and no overflow warning is emitted;
one with k data fields, 1 at most k at most 8, populates the target slot
with a matrix of k entries, fewer than the 9 the data model assumes, and an
empty bias. -/
theorem short_ack_partial_capture (st : HSIState) (line : Str)
    (hv : isValidReg47Ack line = true) (hb : st.hsi_before.C = []) :
    ((parsedOf line).length = 2 →
        readerStep st line =
          ({ st with hsi_before := ⟨[], []⟩ }, ReaderEvent.capturedBefore)) ∧
    (∀ k : Nat, (parsedOf line).length = 2 + k → 1 ≤ k → k ≤ 8 →
        (readerStep st line).2 = ReaderEvent.capturedBefore ∧
        (readerStep st line).1.hsi_before.C.length = k ∧
        (readerStep st line).1.hsi_before.C ≠ [] ∧
        (readerStep st line).1.hsi_before.C.length < 9 ∧
        (readerStep st line).1.hsi_before.B = []) := by
  have e := readerStep_capture_before st line hv hb
  constructor
  · intro hlen
    have hc : ackC line = [] := by
      unfold ackC
      rw [List.drop_eq_nil_iff.mpr (by omega)]
      exact List.take_nil
    have hB : ackB line = [] := by
      unfold ackB
      rw [List.drop_eq_nil_iff.mpr (by omega)]
      exact List.take_nil
    rw [e, hc, hB]
  · intro k hlen hk1 hk8
    have hlc : (readerStep st line).1.hsi_before.C.length = k := by
      rw [e]
      show (ackC line).length = k
      unfold ackC
      rw [List.length_take, List.length_drop, hlen]
      omega
    refine ⟨by rw [e], hlc, ?_, ?_, ?_⟩
    · rw [← List.length_pos, hlc]
      omega
    · rw [hlc]
      omega
    · rw [e]
      show ackB line = []
      unfold ackB
      rw [List.drop_eq_nil_iff.mpr (by omega)]
      exact List.take_nil

theorem short_ack_partial_capture_witness :
    (readerStep initState ("$VNRRG,47".toList) =
      ({ initState with hsi_before := ⟨[], []⟩ }, ReaderEvent.capturedBefore)) ∧
    ((readerStep initState ("$VNRRG,47,1,2,3".toList)).2 = ReaderEvent.capturedBefore ∧
      (readerStep initState ("$VNRRG,47,1,2,3".toList)).1.hsi_before.C.length = 3 ∧
      (readerStep initState ("$VNRRG,47,1,2,3".toList)).1.hsi_before.C ≠ [] ∧
      (readerStep initState ("$VNRRG,47,1,2,3".toList)).1.hsi_before.C.length < 9 ∧
      (readerStep initState ("$VNRRG,47,1,2,3".toList)).1.hsi_before.B = []) := by
  have ha := short_ack_partial_capture initState ("$VNRRG,47".toList) (by decide) rfl
  have hb := short_ack_partial_capture initState ("$VNRRG,47,1,2,3".toList) (by decide) rfl
  exact ⟨ha.1 (by decide), hb.2 3 (by decide) (by decide) (by decide)⟩

/-- C7: the checksum of the payload is its XOR fold rendered as two
uppercase hexadecimal digits and the encoder wraps it in the documented
frame; in particular the checksum value of A is 0x41, that of AB is 0x03,
and the frame for AB is the eight byte sequence dollar A B asterisk 0 3 CR
LF. -/
theorem checksum_encode_values :
    xorFold ("A".toList) = 0x41 ∧ xorFold ("AB".toList) = 0x03 ∧
    vn_checksum ("A".toList) = some ("41".toList) ∧
    vn_checksum ("AB".toList) = some ("03".toList) ∧
    write_full_vn_message ("AB".toList) = some ("$AB*03\r\n".toList) := by
  decide

/-- C1 (amended): at the convergence rate prompt, every numeric input with
value in the closed interval from 1 to 5 is accepted and ends the loop,
every numeric input outside that interval is rejected and the prompt is
repeated, and a non numeric input raises an uncaught ValueError that
aborts the run, since the try clause catches only KeyboardInterrupt.  In
particular 1 and 5 are accepted while 0.999 and 5.001 are rejected with a
re prompt. -/
theorem conv_rate_validation (s : Str) (rest : List PromptInput) :
    (∀ q : ℚ, pyFloat s = some q → 1 ≤ q → q ≤ 5 →
        convRateLoop (PromptInput.line s :: rest) = ConvOutcome.accepted s) ∧
    (∀ q : ℚ, pyFloat s = some q → (q < 1 ∨ 5 < q) →
        convRateLoop (PromptInput.line s :: rest) = convRateLoop rest) ∧
    (pyFloat s = none →
        convRateLoop (PromptInput.line s :: rest) = ConvOutcome.crashed) ∧
    convRateLoop (PromptInput.line ("1".toList) :: rest) =
      ConvOutcome.accepted ("1".toList) ∧
    convRateLoop (PromptInput.line ("5".toList) :: rest) =
      ConvOutcome.accepted ("5".toList) ∧
    convRateLoop (PromptInput.line ("0.999".toList) :: rest) = convRateLoop rest ∧
    convRateLoop (PromptInput.line ("5.001".toList) :: rest) = convRateLoop rest := by
  have gen1 : ∀ (t : Str) (q : ℚ), pyFloat t = some q → 1 ≤ q → q ≤ 5 →
      convRateLoop (PromptInput.line t :: rest) = ConvOutcome.accepted t := by
    intro t q hq hge hle
    conv_lhs => unfold convRateLoop
    rw [hq]
    dsimp only
    rw [if_pos ⟨hle, hge⟩]
  have gen2 : ∀ (t : Str) (q : ℚ), pyFloat t = some q → (q < 1 ∨ 5 < q) →
      convRateLoop (PromptInput.line t :: rest) = convRateLoop rest := by
    intro t q hq hout
    have hcond : ¬(q ≤ 5 ∧ 1 ≤ q) := by
      rcases hout with h | h
      · intro hc
        linarith [hc.2]
      · intro hc
        linarith [hc.1]
    conv_lhs => unfold convRateLoop
    rw [hq]
    dsimp only
    rw [if_neg hcond]
  have gen3 : pyFloat s = none →
      convRateLoop (PromptInput.line s :: rest) = ConvOutcome.crashed := by
    intro hq
    conv_lhs => unfold convRateLoop
    rw [hq]
  have p1 : pyFloat ("1".toList) = some 1 := by
    have h : pyFloatRaw ("1".toList) = some (1, 0) := by decide
    unfold pyFloat
    rw [h, Option.map_some']
    norm_num
  have p5 : pyFloat ("5".toList) = some 5 := by
    have h : pyFloatRaw ("5".toList) = some (5, 0) := by decide
    unfold pyFloat
    rw [h, Option.map_some']
    norm_num
  have p0999 : pyFloat ("0.999".toList) = some (999 / 1000) := by
    have h : pyFloatRaw ("0.999".toList) = some (999, 3) := by decide
    unfold pyFloat
    rw [h, Option.map_some']
    norm_num
  have p5001 : pyFloat ("5.001".toList) = some (5001 / 1000) := by
    have h : pyFloatRaw ("5.001".toList) = some (5001, 3) := by decide
    unfold pyFloat
    rw [h, Option.map_some']
    norm_num
  refine ⟨gen1 s, gen2 s, gen3, gen1 _ 1 p1 le_rfl (by norm_num),
    gen1 _ 5 p5 (by norm_num) le_rfl,
    gen2 _ (999 / 1000) p0999 (Or.inl (by norm_num)),
    gen2 _ (5001 / 1000) p5001 (Or.inr (by norm_num))⟩

theorem conv_rate_validation_witness :
    convRateLoop [PromptInput.line ("abc".toList)] = ConvOutcome.crashed ∧
    convRateLoop [PromptInput.line ("1".toList)] = ConvOutcome.accepted ("1".toList) ∧
    convRateLoop [PromptInput.line ("0.999".toList)] = convRateLoop [] := by
  have h := conv_rate_validation ("abc".toList) []
  exact ⟨h.2.2.1 (by decide), h.2.2.2.1, h.2.2.2.2.2.1⟩

/-- C1 counterexample: a non numeric input at the convergence rate prompt
is not rejected with a re prompt: the loop ends in the crash outcome
(uncaught ValueError), which differs from continuing with the remaining
inputs. -/
theorem conv_rate_nonnumeric_cex :
    convRateLoop [PromptInput.line ("abc".toList)] = ConvOutcome.crashed ∧
    convRateLoop [PromptInput.line ("abc".toList)] ≠ convRateLoop [] := by
  constructor <;> decide

/-- C9: if the operator declines or cancels at the continue gate after the
before snapshot display, the run writes nothing beyond the initial disable
output and read register commands and ends as a normal early stop, not an
error; a KeyboardInterrupt at the gate counts as a decline. -/
theorem decline_gate_early_stop (env : RunEnv)
    (h : check_to_continue env.gate1 = some false) :
    run_hsi_calibration env =
      ([cmdFreqOff, cmdReadHSI], RunOutcome.earlyStopBeforeEstimation) ∧
    (∀ rest : List PromptInput,
        check_to_continue (PromptInput.interrupt :: rest) = some false) := by
  refine ⟨?_, fun rest => rfl⟩
  unfold run_hsi_calibration
  rw [h]

theorem decline_gate_early_stop_witness :
    run_hsi_calibration ⟨[PromptInput.line ("n".toList)], [], []⟩ =
      ([cmdFreqOff, cmdReadHSI], RunOutcome.earlyStopBeforeEstimation) ∧
    check_to_continue [PromptInput.interrupt] = some false := by
  have h := decline_gate_early_stop ⟨[PromptInput.line ("n".toList)], [], []⟩ (by decide)
  exact ⟨h.1, h.2 []⟩

/-- The split result is never the empty list of fields. -/
theorem splitOnChar_ne_nil (c : Char) (l : Str) : splitOnChar c l ≠ [] := by
  cases l with
  | nil => simp [splitOnChar]
  | cons x xs =>
      unfold splitOnChar
      split <;> simp

/-- Recombining the head field and the tail fields gives back the list. -/
theorem headI_cons_tail {α : Type} [Inhabited α] (l : List α) (h : l ≠ []) :
    l.headI :: l.tail = l := by
  cases l with
  | nil => exact absurd rfl h
  | cons a as => rfl

/-- Splitting a cons on a non separator character. -/
theorem splitOnChar_cons_ne (c x : Char) (xs : Str) (h : x ≠ c) :
    splitOnChar c (x :: xs) =
      (x :: (splitOnChar c xs).headI) :: (splitOnChar c xs).tail := by
  conv_lhs => unfold splitOnChar
  rw [if_neg h]

/-- The first split field of a separator free list followed by the
separator is that list itself. -/
theorem splitOnChar_headI_before (c : Char) (l r : Str) (h : c ∉ l) :
    (splitOnChar c (l ++ c :: r)).headI = l := by
  induction l with
  | nil => simp [splitOnChar]
  | cons x xs ih =>
      have hx : x ≠ c := by
        intro he
        exact h (by rw [← he]; exact List.mem_cons_self _ _)
      rw [List.cons_append, splitOnChar_cons_ne c x _ hx]
      simp [ih fun hm => h (List.mem_cons_of_mem _ hm)]

/-- Hexadecimal digits are never whitespace. -/
theorem hexChar_not_space (n : Nat) (h : n < 16) : pyIsSpace (hexChar n) = false := by
  interval_cases n <;> decide

/-- Dropping matching characters from a list whose head does not match is
the identity. -/
theorem dropWhile_head_ne (c : Char) (l : Str) (h : l.head? ≠ some c) :
    List.dropWhile (fun x => x = c) l = l := by
  cases l with
  | nil => rfl
  | cons y ys =>
      rw [List.dropWhile_cons]
      simp only [List.head?_cons, ne_eq, Option.some.injEq] at h
      simp [h]

/-- Stripping the frame of an encoded payload removes exactly the CRLF
terminator, since the checksum ends in a hexadecimal digit. -/
theorem pyStrip_frame (p : Str) (c1 c2 : Char) (h2 : pyIsSpace c2 = false) :
    pyStrip ('$' :: p ++ '*' :: c1 :: c2 :: ['\r', '\n']) =
      '$' :: p ++ ['*', c1, c2] := by
  have hds : pyIsSpace '$' = false := by decide
  have hd : List.dropWhile pyIsSpace ('$' :: (p ++ '*' :: c1 :: c2 :: ['\r', '\n']))
      = '$' :: (p ++ '*' :: c1 :: c2 :: ['\r', '\n']) := by
    rw [List.dropWhile_cons, hds]
    simp
  unfold pyStrip
  rw [List.cons_append, hd]
  have e1 : '$' :: (p ++ '*' :: c1 :: c2 :: ['\r', '\n'])
      = ((('$' :: p ++ ['*', c1]) ++ [c2]) ++ ['\r']) ++ ['\n'] := by
    simp
  rw [e1, List.rdropWhile_concat_pos _ _ _ (by decide),
    List.rdropWhile_concat_pos _ _ _ (by decide),
    List.rdropWhile_concat_neg _ _ _ (by simp [h2])]
  simp

/-- Stripping the prepended dollar from a field that neither begins nor
ends with a dollar gives back the field. -/
theorem pyStripChar_dollar (f0 : Str) (hhead : f0.head? ≠ some '$')
    (hlast : f0.getLast? ≠ some '$') :
    pyStripChar '$' ('$' :: f0) = f0 := by
  unfold pyStripChar
  have h1 : List.dropWhile (fun x => x = '$') ('$' :: f0)
      = List.dropWhile (fun x => x = '$') f0 := by
    rw [List.dropWhile_cons]
    simp
  rw [h1, dropWhile_head_ne '$' f0 hhead]
  unfold List.rdropWhile
  rw [dropWhile_head_ne '$' f0.reverse (by rw [List.head?_reverse]; exact hlast),
    List.reverse_reverse]

/-- C2 (amended): for every ASCII payload that contains no asterisk and
whose first comma field neither begins nor ends with a dollar character,
decoding the frame built by the encoder recovers exactly the comma split of
the payload.  The asterisk restriction is forced because the parser
truncates at the first asterisk of the line, and the dollar restriction
because the type tag strip removes every leading and trailing dollar from
the first field. -/
theorem decode_encode_roundtrip (p frame : Str)
    (henc : write_full_vn_message p = some frame)
    (hstar : '*' ∉ p)
    (hhead : ((splitOnChar ',' p).headI).head? ≠ some '$')
    (hlast : ((splitOnChar ',' p).headI).getLast? ≠ some '$') :
    decodeFields frame = splitOnChar ',' p := by
  have hA : p.all isAsciiCh = true := by
    by_contra hA
    unfold write_full_vn_message vn_checksum at henc
    rw [if_neg hA] at henc
    simp at henc
  have hframe : frame = '$' :: p ++ '*' :: hexChar (xorFold p / 16) ::
      hexChar (xorFold p % 16) :: ['\r', '\n'] := by
    unfold write_full_vn_message vn_checksum at henc
    rw [if_pos hA, Option.map_some'] at henc
    have h3 := Option.some.inj henc
    rw [← h3]
    simp
  have hb2 : pyIsSpace (hexChar (xorFold p % 16)) = false :=
    hexChar_not_space _ (Nat.mod_lt _ (by norm_num))
  have hstrip : pyStrip frame = '$' :: p ++ ['*', hexChar (xorFold p / 16),
      hexChar (xorFold p % 16)] := by
    rw [hframe]
    exact pyStrip_frame p _ _ hb2
  have hsp1 : (splitOnChar '*' (pyStrip frame)).headI = '$' :: p := by
    rw [hstrip]
    have e : ('$' :: p ++ ['*', hexChar (xorFold p / 16), hexChar (xorFold p % 16)])
        = ('$' :: p) ++ '*' :: [hexChar (xorFold p / 16), hexChar (xorFold p % 16)] := by
      simp
    rw [e]
    refine splitOnChar_headI_before '*' ('$' :: p) _ ?_
    intro hm
    rcases List.mem_cons.mp hm with h | h
    · exact absurd h (by decide)
    · exact hstar h
  have hparsed : parsedOf frame = ('$' :: (splitOnChar ',' p).headI) ::
      (splitOnChar ',' p).tail := by
    unfold parsedOf
    rw [hsp1, splitOnChar_cons_ne ',' '$' p (by decide)]
  unfold decodeFields msgTypeOf
  rw [hparsed]
  show pyStripChar '$' ('$' :: (splitOnChar ',' p).headI) :: (splitOnChar ',' p).tail
      = splitOnChar ',' p
  rw [pyStripChar_dollar _ hhead hlast]
  exact headI_cons_tail _ (splitOnChar_ne_nil ',' p)

theorem decode_encode_roundtrip_witness :
    decodeFields ("$VNRRG,47*70\r\n".toList) = splitOnChar ',' ("VNRRG,47".toList) :=
  decode_encode_roundtrip ("VNRRG,47".toList) ("$VNRRG,47*70\r\n".toList)
    (by decide) (by decide) (by decide) (by decide)

/-- C2 counterexample: for the payload consisting of one asterisk, decoding
the encoded frame yields one empty field, not the one asterisk field that
splitting the payload on commas gives, so the round trip fails for a
general ASCII payload. -/
theorem decode_encode_cex :
    (write_full_vn_message ("*".toList)).map decodeFields ≠
      some (splitOnChar ',' ("*".toList)) := by
  decide
